import Mathlib

/-!
Verification of the DREAMT token program (`programs/dreamt/src`).

This file is a shallow embedding of the policy/state-machine layer of the
program: `state.rs` (the `TokenState` and `Blacklist` accounts and their
methods), `constants.rs`, `error.rs`, and the instruction handlers of
`lib.rs` (`mint_by_user`, `admin_burn`, `pause`, `unpause`,
`update_max_supply`, `add_to_blacklist`, `remove_from_blacklist`,
`purchase_item`, `on_transfer_hook`).

Modelling conventions:
* `u64` values are `Nat` together with explicit checked arithmetic that
  fails (returns `none`) outside `[0, 2^64-1]`, mirroring Rust's
  `checked_add` / `checked_sub` / `checked_mul` used by the source.
* `i64` timestamps are `Int` with a checked subtraction that fails outside
  `[-2^63, 2^63-1]`, mirroring `i64::checked_sub`.
* `Pubkey` is an opaque identity, modelled as `Nat`.
* Cross-program invocations into the external SPL token programs (payment
  transfer, mint, burn, refund transfer) are modelled by boolean oracles:
  `true` means the settlement call succeeds, `false` that it returns an
  error which the handler propagates with `?`.
* Anchor account constraints (`#[account(constraint = ...)]`) run before the
  handler body; where a constraint is part of the policy layer (pause check,
  blacklist check on the minting user, blacklist size bound in the transfer
  hook) it is modelled as a leading check of the instruction function.
* Solana account model: when an instruction handler returns an error the
  whole transaction aborts and none of the account writes performed by the
  handler body are persisted.  `commit` below captures this: the state
  observable after a failed call is exactly the state before it.
-/

namespace Dreamt

/-- Largest value representable in a Rust `u64`. -/
def U64_MAX : Nat := 2 ^ 64 - 1

/-- Smallest value representable in a Rust `i64`. -/
def I64_MIN : Int := -(2 ^ 63)

/-- Largest value representable in a Rust `i64`. -/
def I64_MAX : Int := 2 ^ 63 - 1

/-- Rust `u64::checked_add`. -/
def checkedAddU64 (a b : Nat) : Option Nat :=
  if a + b ≤ U64_MAX then some (a + b) else none

/-- Rust `u64::checked_sub`. -/
def checkedSubU64 (a b : Nat) : Option Nat :=
  if b ≤ a then some (a - b) else none

/-- Rust `u64::checked_mul`. -/
def checkedMulU64 (a b : Nat) : Option Nat :=
  if a * b ≤ U64_MAX then some (a * b) else none

/-- Rust `i64::checked_sub`: fails when the mathematical difference is not
representable as an `i64`. -/
def checkedSubI64 (a b : Int) : Option Int :=
  if I64_MIN ≤ a - b ∧ a - b ≤ I64_MAX then some (a - b) else none

/-! Constants from `constants.rs`. -/

/-- `INITIAL_SUPPLY` (8 million raw units). -/
def INITIAL_SUPPLY : Nat := 8000000

/-- `MAX_SUPPLY` (100 million raw units). -/
def MAX_SUPPLY : Nat := 100000000

/-- `TOKEN_PRICE_USDC = 8 * 10^5` (0.8 USDC per token, 6 decimals). -/
def TOKEN_PRICE_USDC : Nat := 800000

/-- `MIN_PURCHASE_USDC = 10 * 10^6`. -/
def MIN_PURCHASE_USDC : Nat := 10000000

/-- `MAX_PURCHASE_USDC = 100_000 * 10^6`. -/
def MAX_PURCHASE_USDC : Nat := 100000000000

/-- `MAX_BLACKLIST_SIZE` (100 entries). -/
def MAX_BLACKLIST_SIZE : Nat := 100

/-- `OPERATION_COOLDOWN` (1 second) — minimum interval between guarded
operations. -/
def OPERATION_COOLDOWN : Int := 1

/-- `UNPAUSE_COOLDOWN = 15 * 60` seconds. -/
def UNPAUSE_COOLDOWN : Int := 900

/-- Error codes of `error.rs` (`DiamondTokenError`). -/
inductive DiamondTokenError where
  | InvalidMultisigThreshold
  | InvalidTokenState
  | InvalidBlacklist
  | AddressBlacklisted
  | InvalidPaymentToken
  | InvalidOwner
  | AddressAlreadyBlacklisted
  | AddressNotBlacklisted
  | BlacklistFull
  | InsufficientBalance
  | InsufficientReserve
  | InvalidAmount
  | InvalidTokenAccount
  | PurchaseAmountTooSmall
  | PurchaseAmountTooLarge
  | MaxSupplyExceeded
  | CannotIncreaseMaxSupply
  | InvalidMaxSupply
  | MaxSupplyReductionTooLarge
  | ProgramPaused
  | InvalidDecimals
  | MathOverflow
  | AlreadyPaused
  | NotPaused
  | NotAuthorized
  | InsufficientFunds
  | InvalidVaultOwner
  | InvalidAuthority
  | InvalidMultisig
  | MultisigVerificationFailed
  | SourceAddressBlacklisted
  | DestinationAddressBlacklisted
  | UnpauseCooldownNotElapsed
  | InvalidTokenVersion
  | ReentrancyNotAllowed
  | OperationCooldownNotElapsed
  | InvalidMultisigTransaction
  | InvalidTimestamp
  | MissingMultisigSigner
  | TransferHookError
  | InvalidTokenProgram
  deriving DecidableEq, Repr

/-- Error observed by the caller of an instruction: either a program error
from `DiamondTokenError`, or an error propagated from one of the external
settlement (SPL token) cross-program invocations. -/
inductive TxError where
  | program (e : DiamondTokenError)
  | settlement
  deriving DecidableEq, Repr

/-- Account identity (Solana `Pubkey`), modelled opaquely. -/
abbrev Pubkey := Nat

/-- The `TokenState` account of `state.rs`. -/
structure TokenState where
  authority : Pubkey
  mint : Pubkey
  total_supply : Nat
  max_supply : Nat
  is_paused : Bool
  last_pause_timestamp : Int
  multisig : Pubkey
  vault_owner : Pubkey
  bump : Nat
  in_operation : Bool
  last_operation_timestamp : Int
  deriving DecidableEq, Repr

/-- `TokenState::start_operation` (state.rs lines 46-69): reentrancy check,
then checked cooldown computation against the clock, then acquire the guard
and record the timestamp.  The current clock reading (`Clock::get()`) is
passed in as `now`. -/
def TokenState.start_operation (s : TokenState) (now : Int) :
    Except TxError TokenState :=
  if s.in_operation then
    .error (.program .ReentrancyNotAllowed)
  else
    match checkedSubI64 now s.last_operation_timestamp with
    | none => .error (.program .MathOverflow)
    | some time_diff =>
      if OPERATION_COOLDOWN ≤ time_diff then
        .ok { s with in_operation := true, last_operation_timestamp := now }
      else
        .error (.program .OperationCooldownNotElapsed)

/-- `TokenState::end_operation` (state.rs lines 73-75): clear the guard. -/
def TokenState.end_operation (s : TokenState) : TokenState :=
  { s with in_operation := false }

/-- `TokenState::update_total_supply_sub` (state.rs lines 94-99): checked
subtraction from `total_supply`, `MathOverflow` on underflow. -/
def TokenState.update_total_supply_sub (s : TokenState) (amount : Nat) :
    Except TxError TokenState :=
  match checkedSubU64 s.total_supply amount with
  | none => .error (.program .MathOverflow)
  | some t => .ok { s with total_supply := t }

/-- The `Blacklist` account of `state.rs`: a `Vec<Pubkey>` of excluded
addresses plus the PDA bump. -/
structure Blacklist where
  addresses : List Pubkey
  bump : Nat
  deriving DecidableEq, Repr

/-- Decidable equality of instruction results, for evaluating concrete
runs. -/
instance {ε α : Type} [DecidableEq ε] [DecidableEq α] : DecidableEq (Except ε α) :=
  fun a b =>
  match a, b with
  | .ok x, .ok y =>
    if h : x = y then isTrue (by rw [h]) else
      isFalse (by intro hc; injection hc; contradiction)
  | .error e, .error f =>
    if h : e = f then isTrue (by rw [h]) else
      isFalse (by intro hc; injection hc; contradiction)
  | .ok _, .error _ => isFalse (by intro hc; exact Except.noConfusion hc)
  | .error _, .ok _ => isFalse (by intro hc; exact Except.noConfusion hc)

/-- Rust `Vec::swap_remove(i)`: replace the element at index `i` with the
last element and shorten the vector by one (O(1), order not preserved). -/
def swapRemove (l : List Pubkey) (i : Nat) : List Pubkey :=
  match l.getLast? with
  | none => []
  | some b => (l.set i b).dropLast

/-- Rust `iter().position(|x| x == address)`: index of the first occurrence. -/
def position (address : Pubkey) : List Pubkey → Option Nat
  | [] => none
  | x :: xs => if x = address then some 0 else (position address xs).map (· + 1)

/-- `Blacklist::contains` (state.rs lines 118-120). -/
def Blacklist.containsAddr (bl : Blacklist) (address : Pubkey) : Bool :=
  decide (address ∈ bl.addresses)

/-- `Blacklist::add` (state.rs lines 124-140): duplicate check, then size
check against `MAX_BLACKLIST_SIZE`, then push. -/
def Blacklist.add (bl : Blacklist) (address : Pubkey) : Except TxError Blacklist :=
  if address ∈ bl.addresses then
    .error (.program .AddressAlreadyBlacklisted)
  else if MAX_BLACKLIST_SIZE ≤ bl.addresses.length then
    .error (.program .BlacklistFull)
  else
    .ok { bl with addresses := bl.addresses ++ [address] }

/-- `Blacklist::remove` (state.rs lines 144-152): find the first occurrence
and `swap_remove` it, `AddressNotBlacklisted` when absent. -/
def Blacklist.remove (bl : Blacklist) (address : Pubkey) : Except TxError Blacklist :=
  match position address bl.addresses with
  | some i => .ok { bl with addresses := swapRemove bl.addresses i }
  | none => .error (.program .AddressNotBlacklisted)

/-! Instruction handlers of `lib.rs`.

Each handler is a function from the pre-state and the instruction's inputs
(arguments, relevant account data, the clock reading, and the settlement
oracles) to `Except TxError` of the post-state of the accounts it mutates. -/

/-- Observable state after a call, per the Solana transaction model: a
successful instruction persists its writes, a failed instruction reverts
them all, leaving the pre-state. -/
def commit (s : TokenState) (r : Except TxError TokenState) : TokenState :=
  match r with
  | .ok s' => s'
  | .error _ => s

/-- `commit` for instructions that write both `TokenState` and `Blacklist`. -/
def commit2 (s : TokenState × Blacklist)
    (r : Except TxError (TokenState × Blacklist)) : TokenState × Blacklist :=
  match r with
  | .ok s' => s'
  | .error _ => s

/-- The `TokenState` produced by `initialize` (lib.rs lines 126-169):
`total_supply = INITIAL_SUPPLY`, `max_supply = MAX_SUPPLY`, unpaused, both
timestamps zero, guard released, identities from the passed accounts. -/
def initTokenState (authority mint multisig vault_owner bump : Nat) : TokenState :=
  { authority := authority
    mint := mint
    total_supply := INITIAL_SUPPLY
    max_supply := MAX_SUPPLY
    is_paused := false
    last_pause_timestamp := 0
    multisig := multisig
    vault_owner := vault_owner
    bump := bump
    in_operation := false
    last_operation_timestamp := 0 }

/-- The `Blacklist` produced by `initialize` (lib.rs lines 142-144). -/
def initBlacklist (bump : Nat) : Blacklist :=
  { addresses := [], bump := bump }

/-- `mint_by_user` (lib.rs lines 187-278).  The two leading checks are the
`MintByUser` account constraints (pause flag, minting user not blacklisted);
then the handler body: guard acquisition, amount validation, checked
payment computation, purchase bounds, checked new supply against the cap,
vault-owner consistency, the two settlement calls (USDC payment transfer
and token mint, oracles `paymentOk`/`mintOk`), supply commit and guard
release. -/
def mint_by_user (ts : TokenState) (bl : Blacklist) (user vaultOwnerKey : Pubkey)
    (amount : Nat) (now : Int) (paymentOk mintOk : Bool) :
    Except TxError TokenState :=
  if ts.is_paused then .error (.program .ProgramPaused)
  else if user ∈ bl.addresses then .error (.program .AddressBlacklisted)
  else
    match ts.start_operation now with
    | .error e => .error e
    | .ok ts1 =>
      if amount = 0 then .error (.program .InvalidAmount)
      else
        match checkedMulU64 amount TOKEN_PRICE_USDC with
        | none => .error (.program .MathOverflow)
        | some payment_amount =>
          if payment_amount < MIN_PURCHASE_USDC then
            .error (.program .PurchaseAmountTooSmall)
          else if MAX_PURCHASE_USDC < payment_amount then
            .error (.program .PurchaseAmountTooLarge)
          else
            match checkedAddU64 ts1.total_supply amount with
            | none => .error (.program .MathOverflow)
            | some new_supply =>
              if ts1.max_supply < new_supply then
                .error (.program .MaxSupplyExceeded)
              else if vaultOwnerKey ≠ ts1.vault_owner then
                .error (.program .InvalidVaultOwner)
              else if paymentOk = false then .error .settlement
              else if mintOk = false then .error .settlement
              else .ok (TokenState.end_operation { ts1 with total_supply := new_supply })

/-- `admin_burn` (lib.rs lines 285-361): amount validation, guard
acquisition, multisig identity check, pause check, vault balance check,
checked refund computation, checked supply decrement, refund balance check,
the two settlement calls (token burn and USDC refund transfer, oracles
`burnOk`/`refundOk`), guard release. -/
def admin_burn (ts : TokenState) (multisigKey : Pubkey)
    (amount vaultBalance refundBalance : Nat) (now : Int)
    (burnOk refundOk : Bool) : Except TxError TokenState :=
  if amount = 0 then .error (.program .InvalidAmount)
  else
    match ts.start_operation now with
    | .error e => .error e
    | .ok ts1 =>
      if ts1.multisig ≠ multisigKey then .error (.program .InvalidMultisig)
      else if ts1.is_paused then .error (.program .ProgramPaused)
      else if vaultBalance < amount then .error (.program .InsufficientBalance)
      else
        match checkedMulU64 amount TOKEN_PRICE_USDC with
        | none => .error (.program .MathOverflow)
        | some refund_amount =>
          match ts1.update_total_supply_sub amount with
          | .error e => .error e
          | .ok ts2 =>
            if refundBalance < refund_amount then .error (.program .InsufficientFunds)
            else if burnOk = false then .error .settlement
            else if refundOk = false then .error .settlement
            else .ok ts2.end_operation

/-- `pause` (lib.rs lines 366-396): multisig identity check, already-paused
check, then set the pause flag and record the pause timestamp.  Note: no
Operation Guard is taken. -/
def pause (ts : TokenState) (multisigKey : Pubkey) (now : Int) :
    Except TxError TokenState :=
  if ts.multisig ≠ multisigKey then .error (.program .InvalidMultisig)
  else if ts.is_paused then .error (.program .AlreadyPaused)
  else .ok { ts with is_paused := true, last_pause_timestamp := now }

/-- `unpause` (lib.rs lines 401-440): multisig identity check, not-paused
check, checked cooldown computation, cooldown comparison against
`UNPAUSE_COOLDOWN`, then clear the pause flag.  Note: no Operation Guard is
taken. -/
def unpause (ts : TokenState) (multisigKey : Pubkey) (now : Int) :
    Except TxError TokenState :=
  if ts.multisig ≠ multisigKey then .error (.program .InvalidMultisig)
  else if ts.is_paused = false then .error (.program .NotPaused)
  else
    match checkedSubI64 now ts.last_pause_timestamp with
    | none => .error (.program .MathOverflow)
    | some cooldown_elapsed =>
      if UNPAUSE_COOLDOWN ≤ cooldown_elapsed then
        .ok { ts with is_paused := false }
      else .error (.program .UnpauseCooldownNotElapsed)

/-- `update_max_supply` (lib.rs lines 445-484): multisig identity check,
pause check, positivity, floor at `total_supply`, ceiling at the current
`max_supply`, then commit.  Note: no Operation Guard is taken. -/
def update_max_supply (ts : TokenState) (multisigKey : Pubkey)
    (new_max_supply : Nat) : Except TxError TokenState :=
  if ts.multisig ≠ multisigKey then .error (.program .InvalidMultisig)
  else if ts.is_paused then .error (.program .ProgramPaused)
  else if new_max_supply = 0 then .error (.program .InvalidMaxSupply)
  else if new_max_supply < ts.total_supply then
    .error (.program .MaxSupplyReductionTooLarge)
  else if ts.max_supply < new_max_supply then
    .error (.program .CannotIncreaseMaxSupply)
  else .ok { ts with max_supply := new_max_supply }

/-- `add_to_blacklist` (lib.rs lines 489-522): guard acquisition first,
then multisig identity check, pause check, `Blacklist::add`, guard
release. -/
def add_to_blacklist (ts : TokenState) (bl : Blacklist)
    (multisigKey address : Pubkey) (now : Int) :
    Except TxError (TokenState × Blacklist) :=
  match ts.start_operation now with
  | .error e => .error e
  | .ok ts1 =>
    if ts1.multisig ≠ multisigKey then .error (.program .InvalidMultisig)
    else if ts1.is_paused then .error (.program .ProgramPaused)
    else
      match bl.add address with
      | .error e => .error e
      | .ok bl1 => .ok (ts1.end_operation, bl1)

/-- `remove_from_blacklist` (lib.rs lines 526-559): guard acquisition
first, then multisig identity check, pause check, `Blacklist::remove`,
guard release. -/
def remove_from_blacklist (ts : TokenState) (bl : Blacklist)
    (multisigKey address : Pubkey) (now : Int) :
    Except TxError (TokenState × Blacklist) :=
  match ts.start_operation now with
  | .error e => .error e
  | .ok ts1 =>
    if ts1.multisig ≠ multisigKey then .error (.program .InvalidMultisig)
    else if ts1.is_paused then .error (.program .ProgramPaused)
    else
      match bl.remove address with
      | .error e => .error e
      | .ok bl1 => .ok (ts1.end_operation, bl1)

/-- `purchase_item` (lib.rs lines 566-611).  The leading pause check is the
`PurchaseItem` account constraint; then the body: amount validation,
`validate_item_id` (non-empty, at most 32 bytes, both reported as
`InvalidAmount`), a second pause check, guard acquisition, vault-owner
consistency, the settlement transfer (oracle `transferOk`), guard release.
(The `token_state` account is not marked `mut` in `PurchaseItem`, so on
success the guard bookkeeping is not actually persisted; no claim below
depends on that, and we return the handler's in-memory post-state.) -/
def purchase_item (ts : TokenState) (vaultOwnerOfVault : Pubkey)
    (amount : Nat) (itemId : String) (now : Int) (transferOk : Bool) :
    Except TxError TokenState :=
  if ts.is_paused then .error (.program .ProgramPaused)
  else if amount = 0 then .error (.program .InvalidAmount)
  else if itemId.isEmpty then .error (.program .InvalidAmount)
  else if 32 < itemId.utf8ByteSize then .error (.program .InvalidAmount)
  else if ts.is_paused then .error (.program .ProgramPaused)
  else
    match ts.start_operation now with
    | .error e => .error e
    | .ok ts1 =>
      if vaultOwnerOfVault ≠ ts1.vault_owner then .error (.program .InvalidVaultOwner)
      else if transferOk = false then .error .settlement
      else .ok ts1.end_operation

/-- `on_transfer_hook` (lib.rs lines 616-646).  The leading size check is
the `TransferHook` account constraint on the blacklist account; then the
body: amount validation, source-owner membership check, destination-owner
membership check, approve. -/
def on_transfer_hook (bl : Blacklist) (sourceOwner destinationOwner : Pubkey)
    (amount : Nat) : Except TxError Unit :=
  if MAX_BLACKLIST_SIZE < bl.addresses.length then .error (.program .BlacklistFull)
  else if amount = 0 then .error (.program .InvalidAmount)
  else if sourceOwner ∈ bl.addresses then .error (.program .SourceAddressBlacklisted)
  else if destinationOwner ∈ bl.addresses then
    .error (.program .DestinationAddressBlacklisted)
  else .ok ()

/-! Operation sequences. -/

/-- One supply-ledger operation together with all of its per-call inputs
(caller identities, clock reading, external balances and settlement
oracles). -/
inductive LedgerOp where
  | mint (user vaultOwnerKey : Pubkey) (amount : Nat) (now : Int)
      (paymentOk mintOk : Bool)
  | burn (multisigKey : Pubkey) (amount vaultBalance refundBalance : Nat)
      (now : Int) (burnOk refundOk : Bool)
  | setMaxSupply (multisigKey : Pubkey) (newMax : Nat)

/-- Apply one ledger operation to the persisted `TokenState` (the blacklist
account is read but not written by these three instructions). -/
def ledgerStep (bl : Blacklist) (ts : TokenState) : LedgerOp → TokenState
  | .mint u v a n p m => commit ts (mint_by_user ts bl u v a n p m)
  | .burn k a vb rb n b r => commit ts (admin_burn ts k a vb rb n b r)
  | .setMaxSupply k m => commit ts (update_max_supply ts k m)

/-- Run a sequence of ledger operations. -/
def runLedger (bl : Blacklist) (ts : TokenState) (ops : List LedgerOp) : TokenState :=
  ops.foldl (ledgerStep bl) ts

/-- One blacklist-registry operation. -/
inductive BlOp where
  | add (address : Pubkey)
  | remove (address : Pubkey)

/-- Apply one registry operation to the persisted `Blacklist` (a failed call
persists nothing). -/
def blStep (bl : Blacklist) : BlOp → Blacklist
  | .add a =>
    match bl.add a with
    | .ok b => b
    | .error _ => bl
  | .remove a =>
    match bl.remove a with
    | .ok b => b
    | .error _ => bl

/-- Run a sequence of registry operations. -/
def runBlacklist (bl : Blacklist) (ops : List BlOp) : Blacklist :=
  ops.foldl blStep bl

/-! Inversion lemmas for the handlers. -/

theorem start_operation_ok {s s' : TokenState} {now : Int}
    (h : s.start_operation now = .ok s') :
    s.in_operation = false ∧
    s' = { s with in_operation := true, last_operation_timestamp := now } := by
  unfold TokenState.start_operation at h
  by_cases hin : s.in_operation = true
  · simp [hin] at h
  · replace hin : s.in_operation = false := by
      cases hx : s.in_operation
      · rfl
      · exact absurd hx hin
    simp only [hin, Bool.false_eq_true, if_false] at h
    cases hcd : checkedSubI64 now s.last_operation_timestamp with
    | none => simp [hcd] at h
    | some d =>
      simp only [hcd] at h
      by_cases hle : OPERATION_COOLDOWN ≤ d
      · simp only [hle, if_true] at h
        injection h with h'
        exact ⟨hin, h'.symm⟩
      · simp [hle] at h

theorem start_operation_reentrancy {s : TokenState} (now : Int)
    (h : s.in_operation = true) :
    s.start_operation now = .error (.program .ReentrancyNotAllowed) := by
  unfold TokenState.start_operation
  simp [h]

theorem mint_by_user_ok {ts : TokenState} {bl : Blacklist}
    {u v : Pubkey} {a : Nat} {n : Int} {p m : Bool} {s' : TokenState}
    (h : mint_by_user ts bl u v a n p m = .ok s') :
    s'.total_supply = ts.total_supply + a ∧
    s'.total_supply ≤ s'.max_supply ∧
    s'.max_supply = ts.max_supply ∧
    s'.total_supply ≤ U64_MAX ∧
    s'.in_operation = false := by
  unfold mint_by_user at h
  by_cases h1 : ts.is_paused = true
  · simp [h1] at h
  rw [if_neg h1] at h
  by_cases h2 : u ∈ bl.addresses
  · simp [h2] at h
  rw [if_neg h2] at h
  cases hso : ts.start_operation n with
  | error e => simp [hso] at h
  | ok ts1 =>
    simp only [hso] at h
    obtain ⟨hinop, hts1⟩ := start_operation_ok hso
    have hts1_total : ts1.total_supply = ts.total_supply := by rw [hts1]
    have hts1_max : ts1.max_supply = ts.max_supply := by rw [hts1]
    by_cases h3 : a = 0
    · simp [h3] at h
    rw [if_neg h3] at h
    cases hmul : checkedMulU64 a TOKEN_PRICE_USDC with
    | none => simp [hmul] at h
    | some payment =>
      simp only [hmul] at h
      by_cases h4 : payment < MIN_PURCHASE_USDC
      · simp [h4] at h
      rw [if_neg h4] at h
      by_cases h5 : MAX_PURCHASE_USDC < payment
      · simp [h5] at h
      rw [if_neg h5] at h
      cases hadd : checkedAddU64 ts1.total_supply a with
      | none => simp [hadd] at h
      | some new_supply =>
        simp only [hadd] at h
        have hbound : new_supply ≤ U64_MAX ∧ new_supply = ts.total_supply + a := by
          unfold checkedAddU64 at hadd
          by_cases hle : ts1.total_supply + a ≤ U64_MAX
          · rw [if_pos hle] at hadd
            injection hadd with h'
            omega
          · simp [hle] at hadd
        by_cases h6 : ts1.max_supply < new_supply
        · simp [h6] at h
        rw [if_neg h6] at h
        by_cases h7 : v ≠ ts1.vault_owner
        · simp [h7] at h
        rw [if_neg h7] at h
        by_cases h8 : p = false
        · simp [h8] at h
        rw [if_neg h8] at h
        by_cases h9 : m = false
        · simp [h9] at h
        rw [if_neg h9] at h
        injection h with h'
        subst h'
        exact ⟨hbound.2, le_of_not_lt h6, hts1_max, hbound.1, rfl⟩

theorem admin_burn_ok {ts : TokenState} {k : Pubkey}
    {a vb rb : Nat} {n : Int} {b r : Bool} {s' : TokenState}
    (h : admin_burn ts k a vb rb n b r = .ok s') :
    s'.total_supply ≤ ts.total_supply ∧
    s'.max_supply = ts.max_supply ∧
    s'.in_operation = false ∧
    a ≤ ts.total_supply ∧ b = true ∧ r = true := by
  unfold admin_burn at h
  by_cases h1 : a = 0
  · simp [h1] at h
  rw [if_neg h1] at h
  cases hso : ts.start_operation n with
  | error e => simp [hso] at h
  | ok ts1 =>
    simp only [hso] at h
    obtain ⟨hinop, hts1⟩ := start_operation_ok hso
    have hts1_total : ts1.total_supply = ts.total_supply := by rw [hts1]
    have hts1_max : ts1.max_supply = ts.max_supply := by rw [hts1]
    by_cases h2 : ts1.multisig ≠ k
    · simp [h2] at h
    rw [if_neg h2] at h
    by_cases h3 : ts1.is_paused = true
    · simp [h3] at h
    rw [if_neg h3] at h
    by_cases h4 : vb < a
    · simp [h4] at h
    rw [if_neg h4] at h
    cases hmul : checkedMulU64 a TOKEN_PRICE_USDC with
    | none => simp [hmul] at h
    | some refund_amount =>
      simp only [hmul] at h
      cases hsub : ts1.update_total_supply_sub a with
      | error e => simp [hsub] at h
      | ok ts2 =>
        simp only [hsub] at h
        have hts2 : ts2.total_supply ≤ ts.total_supply ∧
            ts2.max_supply = ts.max_supply ∧ a ≤ ts.total_supply := by
          unfold TokenState.update_total_supply_sub at hsub
          cases hse : checkedSubU64 ts1.total_supply a with
          | none => simp [hse] at hsub
          | some t =>
            simp only [hse] at hsub
            injection hsub with h'
            have h'' : t ≤ ts1.total_supply ∧ a ≤ ts1.total_supply := by
              unfold checkedSubU64 at hse
              by_cases hba : a ≤ ts1.total_supply
              · rw [if_pos hba] at hse
                injection hse with h3'
                omega
              · simp [hba] at hse
            rw [← h']
            exact ⟨by simpa [hts1_total] using h''.1, by simpa using hts1_max,
              by simpa [hts1_total] using h''.2⟩
        by_cases h5 : rb < refund_amount
        · simp [h5] at h
        rw [if_neg h5] at h
        by_cases h6 : b = false
        · simp [h6] at h
        rw [if_neg h6] at h
        by_cases h7 : r = false
        · simp [h7] at h
        rw [if_neg h7] at h
        injection h with h'
        subst h'
        exact ⟨hts2.1, hts2.2.1, rfl, hts2.2.2, by simpa using h6, by simpa using h7⟩

theorem update_max_supply_ok {ts : TokenState} {k : Pubkey}
    {nm : Nat} {s' : TokenState}
    (h : update_max_supply ts k nm = .ok s') :
    s'.total_supply = ts.total_supply ∧
    ts.total_supply ≤ s'.max_supply ∧
    s'.max_supply ≤ ts.max_supply ∧
    s'.in_operation = ts.in_operation := by
  unfold update_max_supply at h
  by_cases h1 : ts.multisig ≠ k
  · simp [h1] at h
  rw [if_neg h1] at h
  by_cases h2 : ts.is_paused = true
  · simp [h2] at h
  rw [if_neg h2] at h
  by_cases h3 : nm = 0
  · simp [h3] at h
  rw [if_neg h3] at h
  by_cases h4 : nm < ts.total_supply
  · simp [h4] at h
  rw [if_neg h4] at h
  by_cases h5 : ts.max_supply < nm
  · simp [h5] at h
  rw [if_neg h5] at h
  injection h with h'
  subst h'
  exact ⟨rfl, le_of_not_lt h4, le_of_not_lt h5, rfl⟩

theorem add_to_blacklist_ok {ts : TokenState} {bl : Blacklist}
    {k adr : Pubkey} {n : Int} {out : TokenState × Blacklist}
    (h : add_to_blacklist ts bl k adr n = .ok out) :
    out.1.in_operation = false := by
  unfold add_to_blacklist at h
  cases hso : ts.start_operation n with
  | error e => simp [hso] at h
  | ok ts1 =>
    simp only [hso] at h
    by_cases h2 : ts1.multisig ≠ k
    · simp [h2] at h
    rw [if_neg h2] at h
    by_cases h3 : ts1.is_paused = true
    · simp [h3] at h
    rw [if_neg h3] at h
    cases hadd : bl.add adr with
    | error e => simp [hadd] at h
    | ok bl1 =>
      simp only [hadd] at h
      injection h with h'
      subst h'
      rfl

theorem remove_from_blacklist_ok {ts : TokenState} {bl : Blacklist}
    {k adr : Pubkey} {n : Int} {out : TokenState × Blacklist}
    (h : remove_from_blacklist ts bl k adr n = .ok out) :
    out.1.in_operation = false := by
  unfold remove_from_blacklist at h
  cases hso : ts.start_operation n with
  | error e => simp [hso] at h
  | ok ts1 =>
    simp only [hso] at h
    by_cases h2 : ts1.multisig ≠ k
    · simp [h2] at h
    rw [if_neg h2] at h
    by_cases h3 : ts1.is_paused = true
    · simp [h3] at h
    rw [if_neg h3] at h
    cases hrem : bl.remove adr with
    | error e => simp [hrem] at h
    | ok bl1 =>
      simp only [hrem] at h
      injection h with h'
      subst h'
      rfl

theorem purchase_item_ok {ts : TokenState} {vo : Pubkey} {a : Nat}
    {itemId : String} {n : Int} {tOk : Bool} {s' : TokenState}
    (h : purchase_item ts vo a itemId n tOk = .ok s') :
    s'.in_operation = false := by
  unfold purchase_item at h
  by_cases h1 : ts.is_paused = true
  · simp [h1] at h
  rw [if_neg h1] at h
  by_cases h2 : a = 0
  · simp [h2] at h
  rw [if_neg h2] at h
  by_cases h3 : itemId.isEmpty = true
  · simp [h3] at h
  rw [if_neg h3] at h
  by_cases h4 : 32 < itemId.utf8ByteSize
  · simp [h4] at h
  rw [if_neg h4] at h
  rw [if_neg h1] at h
  cases hso : ts.start_operation n with
  | error e => simp [hso] at h
  | ok ts1 =>
    simp only [hso] at h
    by_cases h5 : vo ≠ ts1.vault_owner
    · simp [h5] at h
    rw [if_neg h5] at h
    by_cases h6 : tOk = false
    · simp [h6] at h
    rw [if_neg h6] at h
    injection h with h'
    subst h'
    rfl

/-! Lemmas about `position` and `swapRemove` (the `Vec::swap_remove`-based
removal strategy of `Blacklist::remove`). -/

theorem position_eq_none {a : Pubkey} : ∀ {l : List Pubkey},
    position a l = none ↔ a ∉ l := by
  intro l
  induction l with
  | nil => simp [position]
  | cons x xs ih =>
    by_cases hx : x = a
    · simp [position, hx]
    · simp [position, hx, ih, Ne.symm hx]

theorem position_spec {a : Pubkey} : ∀ {l : List Pubkey} {i : Nat},
    position a l = some i → i < l.length ∧ l.eraseIdx i = l.erase a := by
  intro l
  induction l with
  | nil => intro i h; simp [position] at h
  | cons x xs ih =>
    intro i h
    by_cases hx : x = a
    · simp [position, hx] at h
      subst h
      simp [hx]
    · simp [position, hx] at h
      obtain ⟨j, hj, hij⟩ := h
      obtain ⟨hlen, herase⟩ := ih hj
      subst hij
      constructor
      · simpa using Nat.succ_lt_succ hlen
      · simp [List.eraseIdx_cons_succ, List.erase_cons, hx, herase]

theorem swapRemove_perm : ∀ (l : List Pubkey) (i : Nat), i < l.length →
    (swapRemove l i).Perm (l.eraseIdx i) := by
  intro l
  induction l with
  | nil => intro i h; simp at h
  | cons x xs ih =>
    intro i hi
    cases xs with
    | nil =>
      have : i = 0 := by simpa using Nat.lt_one_iff.mp (by simpa using hi)
      subst this
      simp [swapRemove]
    | cons y ys =>
      have hne : (y :: ys : List Pubkey) ≠ [] := by simp
      obtain ⟨b, hb⟩ : ∃ b, (y :: ys : List Pubkey).getLast? = some b := by
        cases hgl : (y :: ys : List Pubkey).getLast? with
        | none => simp [List.getLast?_eq_none_iff] at hgl
        | some b => exact ⟨b, rfl⟩
      cases i with
      | zero =>
        have h1 : swapRemove (x :: y :: ys) 0 = b :: (y :: ys).dropLast := by
          simp [swapRemove, List.getLast?_cons_cons, hb]
        have h2 : (y :: ys).dropLast ++ [b] = y :: ys := by
          have hbl : (y :: ys).getLast hne = b := by
            have := List.getLast?_eq_getLast (y :: ys) hne
            rw [hb] at this
            exact (Option.some_inj.mp this).symm
          rw [← hbl]
          exact List.dropLast_append_getLast hne
        rw [h1]
        have : (b :: (y :: ys).dropLast).Perm ((y :: ys).dropLast ++ [b]) :=
          (List.perm_append_singleton b _).symm
        simpa [h2] using this
      | succ j =>
        have hj : j < (y :: ys).length := by simpa using hi
        have h1 : swapRemove (x :: y :: ys) (j + 1) = x :: swapRemove (y :: ys) j := by
          unfold swapRemove
          rw [List.getLast?_cons_cons, hb]
          have hset : ∃ z zs, (y :: ys).set j b = z :: zs := by
            cases j with
            | zero => exact ⟨b, ys, rfl⟩
            | succ k => exact ⟨y, ys.set k b, rfl⟩
          obtain ⟨z, zs, hz⟩ := hset
          simp [hz]
        rw [h1, List.eraseIdx_cons_succ]
        exact (ih j hj).cons x

/-! Specifications of `Blacklist::add` and `Blacklist::remove`. -/

theorem blacklist_add_already {bl : Blacklist} {a : Pubkey}
    (h : a ∈ bl.addresses) :
    bl.add a = .error (.program .AddressAlreadyBlacklisted) := by
  unfold Blacklist.add
  rw [if_pos h]

theorem blacklist_add_full {bl : Blacklist} {a : Pubkey}
    (h : a ∉ bl.addresses) (hfull : MAX_BLACKLIST_SIZE ≤ bl.addresses.length) :
    bl.add a = .error (.program .BlacklistFull) := by
  unfold Blacklist.add
  rw [if_neg h, if_pos hfull]

theorem blacklist_add_ok {bl : Blacklist} {a : Pubkey}
    (h : a ∉ bl.addresses) (hlen : bl.addresses.length < MAX_BLACKLIST_SIZE) :
    bl.add a = .ok { bl with addresses := bl.addresses ++ [a] } := by
  unfold Blacklist.add
  rw [if_neg h, if_neg (not_le.mpr hlen)]

theorem blacklist_remove_absent {bl : Blacklist} {a : Pubkey}
    (h : a ∉ bl.addresses) :
    bl.remove a = .error (.program .AddressNotBlacklisted) := by
  unfold Blacklist.remove
  rw [position_eq_none.mpr h]

theorem blacklist_remove_ok_perm {bl : Blacklist} {a : Pubkey} {bl' : Blacklist}
    (h : bl.remove a = .ok bl') :
    a ∈ bl.addresses ∧ bl'.addresses.Perm (bl.addresses.erase a) ∧
    bl'.bump = bl.bump := by
  unfold Blacklist.remove at h
  cases hp : position a bl.addresses with
  | none => simp [hp] at h
  | some i =>
    simp only [hp] at h
    injection h with h'
    subst h'
    have hmem : a ∈ bl.addresses := by
      by_contra hmem
      rw [position_eq_none.mpr hmem] at hp
      exact Option.noConfusion hp
    obtain ⟨hlen, herase⟩ := position_spec hp
    exact ⟨hmem, herase ▸ swapRemove_perm bl.addresses i hlen, rfl⟩

theorem blacklist_remove_exists {bl : Blacklist} {a : Pubkey}
    (h : a ∈ bl.addresses) : ∃ bl', bl.remove a = .ok bl' := by
  unfold Blacklist.remove
  cases hp : position a bl.addresses with
  | none => exact absurd (position_eq_none.mp hp) (not_not_intro h)
  | some i => exact ⟨_, rfl⟩

/-! Step-invariant lemmas for operation sequences. -/

theorem ledgerStep_inv (bl : Blacklist) (ts : TokenState) (op : LedgerOp)
    (hinv : ts.total_supply ≤ ts.max_supply) :
    (ledgerStep bl ts op).total_supply ≤ (ledgerStep bl ts op).max_supply := by
  cases op with
  | mint u v a n p m =>
    cases h : mint_by_user ts bl u v a n p m with
    | error e => simpa [ledgerStep, commit, h] using hinv
    | ok s' =>
      have := mint_by_user_ok h
      simpa [ledgerStep, commit, h] using this.2.1
  | burn k a vb rb n b r =>
    cases h : admin_burn ts k a vb rb n b r with
    | error e => simpa [ledgerStep, commit, h] using hinv
    | ok s' =>
      obtain ⟨h1, h2, -⟩ := admin_burn_ok h
      simp only [ledgerStep, commit, h]
      omega
  | setMaxSupply k nm =>
    cases h : update_max_supply ts k nm with
    | error e => simpa [ledgerStep, commit, h] using hinv
    | ok s' =>
      obtain ⟨h1, h2, -⟩ := update_max_supply_ok h
      simp only [ledgerStep, commit, h]
      omega

theorem runLedger_inv (bl : Blacklist) (ops : List LedgerOp) :
    ∀ (ts : TokenState), ts.total_supply ≤ ts.max_supply →
      (runLedger bl ts ops).total_supply ≤ (runLedger bl ts ops).max_supply := by
  induction ops with
  | nil => intro ts h; simpa [runLedger] using h
  | cons op ops ih =>
    intro ts h
    have hstep := ledgerStep_inv bl ts op h
    simpa [runLedger, List.foldl_cons] using ih (ledgerStep bl ts op) hstep

theorem blStep_inv (bl : Blacklist) (op : BlOp)
    (h1 : bl.addresses.Nodup) (h2 : bl.addresses.length ≤ MAX_BLACKLIST_SIZE) :
    (blStep bl op).addresses.Nodup ∧
    (blStep bl op).addresses.length ≤ MAX_BLACKLIST_SIZE := by
  cases op with
  | add a =>
    by_cases hmem : a ∈ bl.addresses
    · simp [blStep, blacklist_add_already hmem, h1, h2]
    by_cases hfull : MAX_BLACKLIST_SIZE ≤ bl.addresses.length
    · simp [blStep, blacklist_add_full hmem hfull, h1, h2]
    have hlen : bl.addresses.length < MAX_BLACKLIST_SIZE := not_le.mp hfull
    have hnodup : (bl.addresses ++ [a]).Nodup := by
      have hperm : (bl.addresses ++ [a]).Perm (a :: bl.addresses) :=
        List.perm_append_singleton a bl.addresses
      exact hperm.nodup_iff.mpr (List.nodup_cons.mpr ⟨hmem, h1⟩)
    constructor
    · simpa [blStep, blacklist_add_ok hmem hlen] using hnodup
    · simp only [blStep, blacklist_add_ok hmem hlen]
      simp only [List.length_append, List.length_singleton]
      omega
  | remove a =>
    cases hrem : bl.remove a with
    | error e => simp [blStep, hrem, h1, h2]
    | ok bl' =>
      obtain ⟨hmem, hperm, -⟩ := blacklist_remove_ok_perm hrem
      have hnodup : bl'.addresses.Nodup := hperm.nodup_iff.mpr (h1.erase a)
      have hlen : bl'.addresses.length = bl.addresses.length - 1 := by
        rw [hperm.length_eq]
        exact List.length_erase_of_mem hmem
      constructor
      · simpa [blStep, hrem] using hnodup
      · simp only [blStep, hrem]
        omega

theorem runBlacklist_inv (ops : List BlOp) :
    ∀ (bl : Blacklist), bl.addresses.Nodup →
      bl.addresses.length ≤ MAX_BLACKLIST_SIZE →
      (runBlacklist bl ops).addresses.Nodup ∧
      (runBlacklist bl ops).addresses.length ≤ MAX_BLACKLIST_SIZE := by
  induction ops with
  | nil => intro bl h1 h2; exact ⟨by simpa [runBlacklist] using h1,
      by simpa [runBlacklist] using h2⟩
  | cons op ops ih =>
    intro bl h1 h2
    obtain ⟨h1', h2'⟩ := blStep_inv bl op h1 h2
    have := ih (blStep bl op) h1' h2'
    exact ⟨by simpa [runBlacklist, List.foldl_cons] using this.1,
      by simpa [runBlacklist, List.foldl_cons] using this.2⟩

/-! Claim theorems. -/

/-- C1: Supply-cap invariant.  Starting from the initialized state
(`total_supply = 8_000_000`, `max_supply = 100_000_000`), after every
sequence of `mint_by_user`, `admin_burn` and `update_max_supply`
operations `total_supply ≤ max_supply` holds; and `total_supply` never
underflows: a burn of more than the current supply fails via the checked
subtraction and leaves the persisted state unchanged (it never wraps
around). -/
theorem supply_cap_invariant :
    (∀ (authority mint multisig vaultOwner bump : Nat) (bl : Blacklist)
        (ops : List LedgerOp),
      (runLedger bl (initTokenState authority mint multisig vaultOwner bump)
          ops).total_supply ≤
        (runLedger bl (initTokenState authority mint multisig vaultOwner bump)
          ops).max_supply) ∧
    (∀ (ts : TokenState) (k : Pubkey) (a vb rb : Nat) (n : Int) (b r : Bool),
      ts.total_supply < a →
      commit ts (admin_burn ts k a vb rb n b r) = ts) := by
  constructor
  · intro authority mint multisig vaultOwner bump bl ops
    exact runLedger_inv bl ops _ (by simp [initTokenState, INITIAL_SUPPLY, MAX_SUPPLY])
  · intro ts k a vb rb n b r hlt
    cases hres : admin_burn ts k a vb rb n b r with
    | error e => simp [commit, hres]
    | ok s' =>
      obtain ⟨-, -, -, hba, -, -⟩ := admin_burn_ok hres
      omega

/-- Witness for C1 at concrete inputs: one successful mint from the
initialized state keeps the invariant, and an over-large burn
(8,000,001 > 8,000,000) leaves the state untouched. -/
theorem supply_cap_invariant_witness :
    ((runLedger (initBlacklist 0) (initTokenState 0 0 0 0 0)
        [LedgerOp.mint 1 0 50 5 true true]).total_supply ≤
      (runLedger (initBlacklist 0) (initTokenState 0 0 0 0 0)
        [LedgerOp.mint 1 0 50 5 true true]).max_supply) ∧
    commit (initTokenState 0 0 0 0 0)
        (admin_burn (initTokenState 0 0 0 0 0) 0 8000001 9000000 9000000000000 5
          true true) =
      initTokenState 0 0 0 0 0 :=
  ⟨supply_cap_invariant.1 0 0 0 0 0 (initBlacklist 0) [LedgerOp.mint 1 0 50 5 true true],
   supply_cap_invariant.2 (initTokenState 0 0 0 0 0) 0 8000001 9000000 9000000000000 5
     true true (by decide)⟩

/-- C2: Guard-release invariant.  For each of the five guarded
instructions (`mint_by_user`, `admin_burn`, `add_to_blacklist`,
`remove_from_blacklist`, `purchase_item`), starting from a state with
`in_operation = false`, the persisted state after the call — successful or
failed — again has `in_operation = false`: success paths end with
`end_operation`, and a failed instruction aborts the transaction so none
of its writes (including the guard acquisition) persist. -/
theorem guard_release_invariant (ts : TokenState) (bl : Blacklist)
    (h : ts.in_operation = false) :
    (∀ u v a n p m,
      (commit ts (mint_by_user ts bl u v a n p m)).in_operation = false) ∧
    (∀ k a vb rb n b r,
      (commit ts (admin_burn ts k a vb rb n b r)).in_operation = false) ∧
    (∀ k adr n,
      (commit2 (ts, bl) (add_to_blacklist ts bl k adr n)).1.in_operation = false) ∧
    (∀ k adr n,
      (commit2 (ts, bl) (remove_from_blacklist ts bl k adr n)).1.in_operation = false) ∧
    (∀ vo a itemId n t,
      (commit ts (purchase_item ts vo a itemId n t)).in_operation = false) := by
  refine ⟨?_, ?_, ?_, ?_, ?_⟩
  · intro u v a n p m
    cases hres : mint_by_user ts bl u v a n p m with
    | error e => simpa [commit, hres] using h
    | ok s' => simpa [commit, hres] using (mint_by_user_ok hres).2.2.2.2
  · intro k a vb rb n b r
    cases hres : admin_burn ts k a vb rb n b r with
    | error e => simpa [commit, hres] using h
    | ok s' => simpa [commit, hres] using (admin_burn_ok hres).2.2.1
  · intro k adr n
    cases hres : add_to_blacklist ts bl k adr n with
    | error e => simpa [commit2, hres] using h
    | ok out => simpa [commit2, hres] using add_to_blacklist_ok hres
  · intro k adr n
    cases hres : remove_from_blacklist ts bl k adr n with
    | error e => simpa [commit2, hres] using h
    | ok out => simpa [commit2, hres] using remove_from_blacklist_ok hres
  · intro vo a itemId n t
    cases hres : purchase_item ts vo a itemId n t with
    | error e => simpa [commit, hres] using h
    | ok s' => simpa [commit, hres] using purchase_item_ok hres

/-- Witness for C2 at concrete inputs: a successful mint (guard released
by `end_operation`) and a burn whose settlement fails (guard never
persisted). -/
theorem guard_release_invariant_witness :
    (commit (initTokenState 0 0 0 0 0)
      (mint_by_user (initTokenState 0 0 0 0 0) (initBlacklist 0)
        1 0 50 5 true true)).in_operation = false ∧
    (commit (initTokenState 0 0 0 0 0)
      (admin_burn (initTokenState 0 0 0 0 0) 0 100 1000 100000000 5
        false true)).in_operation = false :=
  ⟨(guard_release_invariant (initTokenState 0 0 0 0 0) (initBlacklist 0)
      (by decide)).1 1 0 50 5 true true,
   (guard_release_invariant (initTokenState 0 0 0 0 0) (initBlacklist 0)
      (by decide)).2.1 0 100 1000 100000000 5 false true⟩

/-- C3: Burn atomicity.  In `admin_burn`, if either settlement step (the
token burn or the USDC refund transfer) fails, the whole instruction
fails, and the persisted `total_supply` is unchanged — the earlier
in-memory decrement is discarded with the rest of the aborted
transaction, so no ledger change is observable on any error path. -/
theorem burn_atomicity (ts : TokenState) (k : Pubkey) (a vb rb : Nat)
    (n : Int) (b r : Bool) (h : b = false ∨ r = false) :
    (∃ e, admin_burn ts k a vb rb n b r = .error e) ∧
    (commit ts (admin_burn ts k a vb rb n b r)).total_supply = ts.total_supply ∧
    (∀ e, admin_burn ts k a vb rb n b r = .error e →
      commit ts (admin_burn ts k a vb rb n b r) = ts) := by
  have herr : ∃ e, admin_burn ts k a vb rb n b r = .error e := by
    cases hres : admin_burn ts k a vb rb n b r with
    | error e => exact ⟨e, rfl⟩
    | ok s' =>
      obtain ⟨-, -, -, -, hb, hr⟩ := admin_burn_ok hres
      cases h with
      | inl hb' => rw [hb] at hb'; exact absurd hb' (by simp)
      | inr hr' => rw [hr] at hr'; exact absurd hr' (by simp)
  obtain ⟨e, he⟩ := herr
  refine ⟨⟨e, he⟩, by simp [commit, he], ?_⟩
  intro e' he'
  simp [commit, he']

/-- Witness for C3 at concrete inputs: a burn of 100 units whose token
burn settlement fails leaves the initialized supply at 8,000,000. -/
theorem burn_atomicity_witness :
    (∃ e, admin_burn (initTokenState 0 0 0 0 0) 0 100 1000 100000000 5
        false true = .error e) ∧
    (commit (initTokenState 0 0 0 0 0)
        (admin_burn (initTokenState 0 0 0 0 0) 0 100 1000 100000000 5
          false true)).total_supply =
      (initTokenState 0 0 0 0 0).total_supply :=
  ⟨(burn_atomicity (initTokenState 0 0 0 0 0) 0 100 1000 100000000 5 false true
      (Or.inl rfl)).1,
   (burn_atomicity (initTokenState 0 0 0 0 0) 0 100 1000 100000000 5 false true
      (Or.inl rfl)).2.1⟩

/-- C4: Mint contract.  With the pre-guard account constraints satisfied
(not paused, minting user not blacklisted), the Operation Guard passable
(`in_operation = false`, cooldown elapsed without i64 overflow), the vault
owner consistent and both settlement calls succeeding, `mint_by_user`
behaves exactly as specified: rejects `amount = 0` with `InvalidAmount`;
rejects a `u64`-overflowing payment with `MathOverflow`; rejects
`payment < 10_000_000` with `PurchaseAmountTooSmall` and
`payment > 100_000_000_000` with `PurchaseAmountTooLarge`; rejects
`total_supply + amount > max_supply` with `MathOverflow`/`MaxSupplyExceeded`
(the former when the sum itself overflows `u64`); and otherwise succeeds,
increasing `total_supply` by exactly `amount`. -/
theorem mint_contract (ts : TokenState) (bl : Blacklist) (u v : Pubkey)
    (a : Nat) (n d : Int)
    (hp : ts.is_paused = false) (hbl : u ∉ bl.addresses)
    (hsub : checkedSubI64 n ts.last_operation_timestamp = some d)
    (hd : OPERATION_COOLDOWN ≤ d)
    (hop : ts.in_operation = false)
    (hv : v = ts.vault_owner)
    (hms : ts.max_supply ≤ U64_MAX) :
    (a = 0 → mint_by_user ts bl u v a n true true = .error (.program .InvalidAmount)) ∧
    (U64_MAX < a * TOKEN_PRICE_USDC →
      mint_by_user ts bl u v a n true true = .error (.program .MathOverflow)) ∧
    (a ≠ 0 → a * TOKEN_PRICE_USDC ≤ U64_MAX →
      a * TOKEN_PRICE_USDC < MIN_PURCHASE_USDC →
      mint_by_user ts bl u v a n true true = .error (.program .PurchaseAmountTooSmall)) ∧
    (a * TOKEN_PRICE_USDC ≤ U64_MAX → MAX_PURCHASE_USDC < a * TOKEN_PRICE_USDC →
      mint_by_user ts bl u v a n true true = .error (.program .PurchaseAmountTooLarge)) ∧
    (MIN_PURCHASE_USDC ≤ a * TOKEN_PRICE_USDC →
      a * TOKEN_PRICE_USDC ≤ MAX_PURCHASE_USDC →
      U64_MAX < ts.total_supply + a →
      mint_by_user ts bl u v a n true true = .error (.program .MathOverflow)) ∧
    (MIN_PURCHASE_USDC ≤ a * TOKEN_PRICE_USDC →
      a * TOKEN_PRICE_USDC ≤ MAX_PURCHASE_USDC →
      ts.total_supply + a ≤ U64_MAX →
      ts.max_supply < ts.total_supply + a →
      mint_by_user ts bl u v a n true true = .error (.program .MaxSupplyExceeded)) ∧
    (MIN_PURCHASE_USDC ≤ a * TOKEN_PRICE_USDC →
      a * TOKEN_PRICE_USDC ≤ MAX_PURCHASE_USDC →
      ts.total_supply + a ≤ ts.max_supply →
      mint_by_user ts bl u v a n true true =
        .ok { ts with total_supply := ts.total_supply + a,
                      in_operation := false,
                      last_operation_timestamp := n }) := by
  have hso : ts.start_operation n =
      .ok { ts with in_operation := true, last_operation_timestamp := n } := by
    unfold TokenState.start_operation
    rw [if_neg (by simp [hop])]
    simp only [hsub]
    rw [if_pos hd]
  have hmaxnum : MAX_PURCHASE_USDC ≤ U64_MAX := by decide
  have hminmax : MIN_PURCHASE_USDC ≤ MAX_PURCHASE_USDC := by decide
  refine ⟨?_, ?_, ?_, ?_, ?_, ?_, ?_⟩
  · intro ha
    simp [mint_by_user, hp, hbl, hso, ha]
  · intro hovf
    have ha : a ≠ 0 := by
      intro ha0
      rw [ha0] at hovf
      simp [U64_MAX] at hovf
    simp [mint_by_user, hp, hbl, hso, ha, checkedMulU64, not_le.mpr hovf]
  · intro ha hrep hlt
    simp [mint_by_user, hp, hbl, hso, ha, checkedMulU64, hrep, hlt]
  · intro hrep hgt
    have ha : a ≠ 0 := by
      intro ha0
      rw [ha0] at hgt
      simp [MAX_PURCHASE_USDC] at hgt
    have hnotlt : ¬(a * TOKEN_PRICE_USDC < MIN_PURCHASE_USDC) := by omega
    simp [mint_by_user, hp, hbl, hso, ha, checkedMulU64, hrep, hnotlt, hgt]
  · intro hmin hmax hovf
    have ha : a ≠ 0 := by
      intro ha0
      rw [ha0] at hmin
      simp [MIN_PURCHASE_USDC] at hmin
    have hrep : a * TOKEN_PRICE_USDC ≤ U64_MAX := le_trans hmax hmaxnum
    have hnotlt : ¬(a * TOKEN_PRICE_USDC < MIN_PURCHASE_USDC) := not_lt.mpr hmin
    have hnotgt : ¬(MAX_PURCHASE_USDC < a * TOKEN_PRICE_USDC) := not_lt.mpr hmax
    simp [mint_by_user, hp, hbl, hso, ha, checkedMulU64, hrep, hnotlt, hnotgt,
      checkedAddU64, not_le.mpr hovf]
  · intro hmin hmax hrep hexc
    have ha : a ≠ 0 := by
      intro ha0
      rw [ha0] at hmin
      simp [MIN_PURCHASE_USDC] at hmin
    have hrepm : a * TOKEN_PRICE_USDC ≤ U64_MAX := le_trans hmax hmaxnum
    have hnotlt : ¬(a * TOKEN_PRICE_USDC < MIN_PURCHASE_USDC) := not_lt.mpr hmin
    have hnotgt : ¬(MAX_PURCHASE_USDC < a * TOKEN_PRICE_USDC) := not_lt.mpr hmax
    simp [mint_by_user, hp, hbl, hso, ha, checkedMulU64, hrepm, hnotlt, hnotgt,
      checkedAddU64, hrep, hexc]
  · intro hmin hmax hcap
    have ha : a ≠ 0 := by
      intro ha0
      rw [ha0] at hmin
      simp [MIN_PURCHASE_USDC] at hmin
    have hrepm : a * TOKEN_PRICE_USDC ≤ U64_MAX := le_trans hmax hmaxnum
    have hrep : ts.total_supply + a ≤ U64_MAX := le_trans hcap hms
    have hnotlt : ¬(a * TOKEN_PRICE_USDC < MIN_PURCHASE_USDC) := not_lt.mpr hmin
    have hnotgt : ¬(MAX_PURCHASE_USDC < a * TOKEN_PRICE_USDC) := not_lt.mpr hmax
    have hnotexc : ¬(ts.max_supply < ts.total_supply + a) := not_lt.mpr hcap
    have hmul : checkedMulU64 a TOKEN_PRICE_USDC = some (a * TOKEN_PRICE_USDC) := by
      unfold checkedMulU64
      rw [if_pos hrepm]
    have haddeq : checkedAddU64 ts.total_supply a = some (ts.total_supply + a) := by
      unfold checkedAddU64
      rw [if_pos hrep]
    simp [mint_by_user, hp, hbl, hso, ha, hmul, hnotlt, hnotgt, haddeq, hnotexc, hv,
      TokenState.end_operation]

/-- Witness for C4: the spec scenario.  From the initialized state
(`total_supply = 8_000_000`, `max_supply = 100_000_000`), minting 50 units
costs 40,000,000 (within bounds) and succeeds with the supply at
8,000,050, while minting 1 unit costs 800,000 < 10,000,000 and fails with
`PurchaseAmountTooSmall`. -/
theorem mint_contract_witness :
    mint_by_user (initTokenState 0 0 0 0 0) (initBlacklist 0) 1 0 50 5 true true =
      .ok { initTokenState 0 0 0 0 0 with
        total_supply := 8000050,
        in_operation := false,
        last_operation_timestamp := 5 } ∧
    mint_by_user (initTokenState 0 0 0 0 0) (initBlacklist 0) 1 0 1 5 true true =
      .error (.program .PurchaseAmountTooSmall) :=
  ⟨(mint_contract (initTokenState 0 0 0 0 0) (initBlacklist 0) 1 0 50 5 5
      (by decide) (by simp [initBlacklist]) (by decide) (by decide) (by decide)
      (by decide) (by decide)).2.2.2.2.2.2 (by decide) (by decide) (by decide),
   (mint_contract (initTokenState 0 0 0 0 0) (initBlacklist 0) 1 0 1 5 5
      (by decide) (by simp [initBlacklist]) (by decide) (by decide) (by decide)
      (by decide) (by decide)).2.2.1 (by decide) (by decide) (by decide)⟩

/-- A concrete state whose Operation Guard is currently held
(`in_operation = true`); all other fields as in the initialized state. -/
def guardHeldState : TokenState :=
  { initTokenState 0 0 0 0 0 with in_operation := true }

/-- C5 counterexample: with the Operation Guard held
(`in_operation = true`), `pause` and `update_max_supply` do not fail with
reentrancy denial — they succeed and mutate state, because neither of
them (nor `unpause`) calls `start_operation`. -/
theorem operation_guard_coverage_counterexample :
    guardHeldState.in_operation = true ∧
    pause guardHeldState 0 7 =
      .ok { guardHeldState with is_paused := true, last_pause_timestamp := 7 } ∧
    update_max_supply guardHeldState 0 50000000 =
      .ok { guardHeldState with max_supply := 50000000 } := by
  refine ⟨rfl, ?_, ?_⟩ <;> rfl

/-- C5 (amended): only `mint_by_user`, `admin_burn`, `add_to_blacklist`,
`remove_from_blacklist` and `purchase_item` pass through the Operation
Guard; `pause`, `unpause` and `update_max_supply` do not.  For every state
with `in_operation = true`, each of the five guarded instructions fails
with `ReentrancyNotAllowed` before mutating any state (provided the checks
that run before the guard pass: account constraints for `mint_by_user`,
`amount > 0` for `admin_burn`, amount/item-id/pause checks for
`purchase_item`). -/
theorem operation_guard_coverage_amended (ts : TokenState) (bl : Blacklist)
    (h : ts.in_operation = true) :
    (∀ u v a n p m, ts.is_paused = false → u ∉ bl.addresses →
      mint_by_user ts bl u v a n p m = .error (.program .ReentrancyNotAllowed)) ∧
    (∀ k a vb rb n b r, a ≠ 0 →
      admin_burn ts k a vb rb n b r = .error (.program .ReentrancyNotAllowed)) ∧
    (∀ k adr n,
      add_to_blacklist ts bl k adr n = .error (.program .ReentrancyNotAllowed)) ∧
    (∀ k adr n,
      remove_from_blacklist ts bl k adr n = .error (.program .ReentrancyNotAllowed)) ∧
    (∀ vo a itemId n t, ts.is_paused = false → a ≠ 0 → itemId.isEmpty = false →
      itemId.utf8ByteSize ≤ 32 →
      purchase_item ts vo a itemId n t = .error (.program .ReentrancyNotAllowed)) := by
  refine ⟨?_, ?_, ?_, ?_, ?_⟩
  · intro u v a n p m hp hbl
    simp [mint_by_user, hp, hbl, start_operation_reentrancy n h]
  · intro k a vb rb n b r ha
    simp [admin_burn, ha, start_operation_reentrancy n h]
  · intro k adr n
    simp [add_to_blacklist, start_operation_reentrancy n h]
  · intro k adr n
    simp [remove_from_blacklist, start_operation_reentrancy n h]
  · intro vo a itemId n t hp ha hempty hlen
    simp [purchase_item, hp, ha, hempty, not_lt.mpr hlen, start_operation_reentrancy n h]

/-- A concrete non-empty item identifier for `purchase_item` calls. -/
def exItemId : String := "sku1"

/-- Witness for the amended C5 at concrete inputs: all five guarded
instructions fail with `ReentrancyNotAllowed` on `guardHeldState`. -/
theorem operation_guard_coverage_amended_witness :
    mint_by_user guardHeldState (initBlacklist 0) 1 0 50 5 true true =
      .error (.program .ReentrancyNotAllowed) ∧
    admin_burn guardHeldState 0 100 1000 100000000 5 true true =
      .error (.program .ReentrancyNotAllowed) ∧
    add_to_blacklist guardHeldState (initBlacklist 0) 0 9 5 =
      .error (.program .ReentrancyNotAllowed) ∧
    remove_from_blacklist guardHeldState (initBlacklist 0) 0 9 5 =
      .error (.program .ReentrancyNotAllowed) ∧
    purchase_item guardHeldState 0 3 exItemId 5 true =
      .error (.program .ReentrancyNotAllowed) :=
  ⟨(operation_guard_coverage_amended guardHeldState (initBlacklist 0) rfl).1
      1 0 50 5 true true rfl (by simp [initBlacklist]),
   (operation_guard_coverage_amended guardHeldState (initBlacklist 0) rfl).2.1
      0 100 1000 100000000 5 true true (by decide),
   (operation_guard_coverage_amended guardHeldState (initBlacklist 0) rfl).2.2.1 0 9 5,
   (operation_guard_coverage_amended guardHeldState (initBlacklist 0) rfl).2.2.2.1 0 9 5,
   (operation_guard_coverage_amended guardHeldState (initBlacklist 0) rfl).2.2.2.2
      0 3 exItemId 5 true rfl (by decide) (by decide) (by decide)⟩

/-- A concrete state whose `last_operation_timestamp` is `i64::MIN`; the
guard is free (`in_operation = false`). -/
def overflowTimerState : TokenState :=
  { initTokenState 0 0 0 0 0 with last_operation_timestamp := I64_MIN }

/-- C6 counterexample: at `now = 2` on `overflowTimerState`, the guard is
free and the mathematical difference `now - last_operation_timestamp =
2 + 2^63 ≥ 1`, so the claim predicts success; but the `i64` checked
subtraction overflows, and `start_operation` fails with `MathOverflow`
instead of succeeding. -/
theorem start_operation_contract_counterexample :
    overflowTimerState.in_operation = false ∧
    (1 : Int) ≤ 2 - overflowTimerState.last_operation_timestamp ∧
    overflowTimerState.start_operation 2 = .error (.program .MathOverflow) := by
  refine ⟨rfl, by decide, by decide⟩

/-- C6 (amended): `start_operation` fails with `ReentrancyNotAllowed`
whenever `in_operation` is true, regardless of elapsed time; otherwise,
when `now - last_operation_timestamp` is representable in `i64`, it fails
with `OperationCooldownNotElapsed` whenever the difference is `< 1` and
succeeds (setting `in_operation = true`,
`last_operation_timestamp = now`) whenever it is `≥ 1`; when the
subtraction overflows `i64`, it fails with `MathOverflow`. -/
theorem start_operation_contract_amended (s : TokenState) (now : Int) :
    (s.in_operation = true →
      s.start_operation now = .error (.program .ReentrancyNotAllowed)) ∧
    (s.in_operation = false →
      (I64_MIN ≤ now - s.last_operation_timestamp ∧
        now - s.last_operation_timestamp ≤ I64_MAX) →
      ((now - s.last_operation_timestamp < OPERATION_COOLDOWN →
        s.start_operation now = .error (.program .OperationCooldownNotElapsed)) ∧
       (OPERATION_COOLDOWN ≤ now - s.last_operation_timestamp →
        s.start_operation now =
          .ok { s with in_operation := true, last_operation_timestamp := now }))) ∧
    (s.in_operation = false →
      ¬(I64_MIN ≤ now - s.last_operation_timestamp ∧
        now - s.last_operation_timestamp ≤ I64_MAX) →
      s.start_operation now = .error (.program .MathOverflow)) := by
  refine ⟨?_, ?_, ?_⟩
  · intro h
    exact start_operation_reentrancy now h
  · intro hop hrep
    have hcd : checkedSubI64 now s.last_operation_timestamp =
        some (now - s.last_operation_timestamp) := by
      unfold checkedSubI64
      rw [if_pos hrep]
    constructor
    · intro hlt
      unfold TokenState.start_operation
      rw [if_neg (by simp [hop])]
      simp only [hcd]
      rw [if_neg (not_le.mpr hlt)]
    · intro hge
      unfold TokenState.start_operation
      rw [if_neg (by simp [hop])]
      simp only [hcd]
      rw [if_pos hge]
  · intro hop hrep
    have hcd : checkedSubI64 now s.last_operation_timestamp = none := by
      unfold checkedSubI64
      rw [if_neg hrep]
    unfold TokenState.start_operation
    rw [if_neg (by simp [hop])]
    simp only [hcd]

/-- Witness for the amended C6 at concrete inputs: reentrancy denial on a
held guard, cooldown denial at `now = 0` from the initialized state
(difference 0 < 1), and success at `now = 5`. -/
theorem start_operation_contract_amended_witness :
    guardHeldState.start_operation 9 = .error (.program .ReentrancyNotAllowed) ∧
    (initTokenState 0 0 0 0 0).start_operation 0 =
      .error (.program .OperationCooldownNotElapsed) ∧
    (initTokenState 0 0 0 0 0).start_operation 5 =
      .ok { initTokenState 0 0 0 0 0 with
        in_operation := true,
        last_operation_timestamp := 5 } :=
  ⟨(start_operation_contract_amended guardHeldState 9).1 rfl,
   ((start_operation_contract_amended (initTokenState 0 0 0 0 0) 0).2.1 rfl
      (by decide)).1 (by decide),
   ((start_operation_contract_amended (initTokenState 0 0 0 0 0) 5).2.1 rfl
      (by decide)).2 (by decide)⟩

/-- A concrete paused state whose `last_pause_timestamp` is `i64::MAX`. -/
def overflowPauseState : TokenState :=
  { initTokenState 0 0 0 0 0 with is_paused := true, last_pause_timestamp := I64_MAX }

/-- C7 counterexample: on `overflowPauseState` at `now = -2` (matching
multisig), the state is paused and the mathematical difference
`now - last_pause_timestamp` is negative, far below the 900-second
cooldown, so the claim predicts `UnpauseCooldownNotElapsed`; but the
`i64` checked subtraction overflows and `unpause` fails with
`MathOverflow` instead. -/
theorem pause_controller_counterexample :
    overflowPauseState.is_paused = true ∧
    (-2 : Int) - overflowPauseState.last_pause_timestamp < UNPAUSE_COOLDOWN ∧
    unpause overflowPauseState 0 (-2) = .error (.program .MathOverflow) ∧
    unpause overflowPauseState 0 (-2) ≠
      .error (.program .UnpauseCooldownNotElapsed) := by
  refine ⟨rfl, by decide, by decide, by decide⟩

/-- C7 (amended): with a matching multisig identity, `pause` fails with
`AlreadyPaused` when `is_paused` is true and otherwise succeeds, setting
`is_paused = true` and `last_pause_timestamp = now`; `unpause` fails with
`NotPaused` when `is_paused` is false; otherwise, when
`now - last_pause_timestamp` is representable in `i64`, `unpause` fails
with `UnpauseCooldownNotElapsed` whenever the difference is `< 900` and
succeeds (clearing `is_paused`) at exactly the 900-second boundary and
beyond; when the subtraction overflows `i64`, it fails with
`MathOverflow`. -/
theorem pause_controller_amended (ts : TokenState) (k : Pubkey) (now : Int)
    (hk : ts.multisig = k) :
    (ts.is_paused = true → pause ts k now = .error (.program .AlreadyPaused)) ∧
    (ts.is_paused = false →
      pause ts k now = .ok { ts with is_paused := true, last_pause_timestamp := now }) ∧
    (ts.is_paused = false → unpause ts k now = .error (.program .NotPaused)) ∧
    (ts.is_paused = true →
      (I64_MIN ≤ now - ts.last_pause_timestamp ∧
        now - ts.last_pause_timestamp ≤ I64_MAX) →
      ((now - ts.last_pause_timestamp < UNPAUSE_COOLDOWN →
        unpause ts k now = .error (.program .UnpauseCooldownNotElapsed)) ∧
       (UNPAUSE_COOLDOWN ≤ now - ts.last_pause_timestamp →
        unpause ts k now = .ok { ts with is_paused := false }))) ∧
    (ts.is_paused = true →
      ¬(I64_MIN ≤ now - ts.last_pause_timestamp ∧
        now - ts.last_pause_timestamp ≤ I64_MAX) →
      unpause ts k now = .error (.program .MathOverflow)) := by
  have hkne : ¬(ts.multisig ≠ k) := by simp [hk]
  refine ⟨?_, ?_, ?_, ?_, ?_⟩
  · intro hp
    unfold pause
    rw [if_neg hkne, if_pos hp]
  · intro hp
    unfold pause
    rw [if_neg hkne, if_neg (by simp [hp])]
  · intro hp
    unfold unpause
    rw [if_neg hkne, if_pos hp]
  · intro hp hrep
    have hcd : checkedSubI64 now ts.last_pause_timestamp =
        some (now - ts.last_pause_timestamp) := by
      unfold checkedSubI64
      rw [if_pos hrep]
    constructor
    · intro hlt
      unfold unpause
      rw [if_neg hkne, if_neg (by simp [hp])]
      simp only [hcd]
      rw [if_neg (not_le.mpr hlt)]
    · intro hge
      unfold unpause
      rw [if_neg hkne, if_neg (by simp [hp])]
      simp only [hcd]
      rw [if_pos hge]
  · intro hp hrep
    have hcd : checkedSubI64 now ts.last_pause_timestamp = none := by
      unfold checkedSubI64
      rw [if_neg hrep]
    unfold unpause
    rw [if_neg hkne, if_neg (by simp [hp])]
    simp only [hcd]

/-- Witness for the amended C7 at concrete inputs: from the initialized
state, `pause` at `now = 100` succeeds; on the resulting state, a second
`pause` fails with `AlreadyPaused`, `unpause` at `now = 999` (899 seconds
later) fails with the cooldown, and `unpause` at `now = 1000` (exactly the
900-second boundary) succeeds. -/
theorem pause_controller_amended_witness :
    pause (initTokenState 0 0 0 0 0) 0 100 =
      .ok { initTokenState 0 0 0 0 0 with
        is_paused := true,
        last_pause_timestamp := 100 } ∧
    pause { initTokenState 0 0 0 0 0 with
        is_paused := true,
        last_pause_timestamp := 100 } 0 150 =
      .error (.program .AlreadyPaused) ∧
    unpause { initTokenState 0 0 0 0 0 with
        is_paused := true,
        last_pause_timestamp := 100 } 0 999 =
      .error (.program .UnpauseCooldownNotElapsed) ∧
    unpause { initTokenState 0 0 0 0 0 with
        is_paused := true,
        last_pause_timestamp := 100 } 0 1000 =
      .ok { initTokenState 0 0 0 0 0 with
        is_paused := false,
        last_pause_timestamp := 100 } :=
  ⟨(pause_controller_amended (initTokenState 0 0 0 0 0) 0 100 rfl).2.1 rfl,
   (pause_controller_amended { initTokenState 0 0 0 0 0 with
        is_paused := true, last_pause_timestamp := 100 } 0 150 rfl).1 rfl,
   ((pause_controller_amended { initTokenState 0 0 0 0 0 with
        is_paused := true, last_pause_timestamp := 100 } 0 999 rfl).2.2.2.1 rfl
      (by decide)).1 (by decide),
   ((pause_controller_amended { initTokenState 0 0 0 0 0 with
        is_paused := true, last_pause_timestamp := 100 } 0 1000 rfl).2.2.2.1 rfl
      (by decide)).2 (by decide)⟩

/-- C8: Blacklist registry contract and bound.  `add` fails with
`AddressAlreadyBlacklisted` on a present entry and with `BlacklistFull`
at 100 entries, otherwise appends; `remove` fails with
`AddressNotBlacklisted` on an absent entry, otherwise removes exactly
that entry (membership only — `swap_remove` does not preserve order);
every sequence of add/remove operations from the empty registry keeps the
entries duplicate-free and the size at most 100; and removing a present
entry then re-adding it succeeds. -/
theorem blacklist_registry_contract :
    (∀ (bl : Blacklist) (a : Pubkey),
      (a ∈ bl.addresses → bl.add a = .error (.program .AddressAlreadyBlacklisted)) ∧
      (a ∉ bl.addresses → MAX_BLACKLIST_SIZE ≤ bl.addresses.length →
        bl.add a = .error (.program .BlacklistFull)) ∧
      (a ∉ bl.addresses → bl.addresses.length < MAX_BLACKLIST_SIZE →
        bl.add a = .ok { bl with addresses := bl.addresses ++ [a] }) ∧
      (a ∉ bl.addresses → bl.remove a = .error (.program .AddressNotBlacklisted)) ∧
      (bl.addresses.Nodup → a ∈ bl.addresses → ∃ bl',
        bl.remove a = .ok bl' ∧ bl'.addresses.Nodup ∧
        bl'.addresses.length = bl.addresses.length - 1 ∧
        (∀ x, x ∈ bl'.addresses ↔ (x ∈ bl.addresses ∧ x ≠ a)))) ∧
    (∀ (bump : Nat) (ops : List BlOp),
      (runBlacklist (initBlacklist bump) ops).addresses.Nodup ∧
      (runBlacklist (initBlacklist bump) ops).addresses.length ≤ MAX_BLACKLIST_SIZE) ∧
    (∀ (bl : Blacklist) (a : Pubkey), bl.addresses.Nodup →
      bl.addresses.length ≤ MAX_BLACKLIST_SIZE → a ∈ bl.addresses →
      ∃ bl' bl'', bl.remove a = .ok bl' ∧ bl'.add a = .ok bl'') := by
  have hremove : ∀ (bl : Blacklist) (a : Pubkey), bl.addresses.Nodup →
      a ∈ bl.addresses → ∃ bl',
      bl.remove a = .ok bl' ∧ bl'.addresses.Nodup ∧
      bl'.addresses.length = bl.addresses.length - 1 ∧
      (∀ x, x ∈ bl'.addresses ↔ (x ∈ bl.addresses ∧ x ≠ a)) := by
    intro bl a hnd hmem
    obtain ⟨bl', hbl'⟩ := blacklist_remove_exists hmem
    obtain ⟨-, hperm, -⟩ := blacklist_remove_ok_perm hbl'
    refine ⟨bl', hbl', hperm.nodup_iff.mpr (hnd.erase a), ?_, ?_⟩
    · rw [hperm.length_eq]
      exact List.length_erase_of_mem hmem
    · intro x
      rw [hperm.mem_iff, hnd.mem_erase_iff]
      tauto
  refine ⟨?_, ?_, ?_⟩
  · intro bl a
    exact ⟨fun h => blacklist_add_already h,
      fun h hf => blacklist_add_full h hf,
      fun h hl => blacklist_add_ok h hl,
      fun h => blacklist_remove_absent h,
      fun hnd hmem => hremove bl a hnd hmem⟩
  · intro bump ops
    exact runBlacklist_inv ops (initBlacklist bump) (by simp [initBlacklist])
      (by simp [initBlacklist, MAX_BLACKLIST_SIZE])
  · intro bl a hnd hlen hmem
    obtain ⟨bl', hbl', hnd', hlen', hmem'⟩ := hremove bl a hnd hmem
    have ha' : a ∉ bl'.addresses := by
      intro hc
      exact absurd rfl ((hmem' a).mp hc).2
    have hl' : bl'.addresses.length < MAX_BLACKLIST_SIZE := by
      have hpos : 0 < bl.addresses.length := List.length_pos.mpr (by
        intro hnil
        rw [hnil] at hmem
        exact absurd hmem (List.not_mem_nil a))
      omega
    exact ⟨bl', { bl' with addresses := bl'.addresses ++ [a] }, hbl',
      blacklist_add_ok ha' hl'⟩

/-- Witness for C8 at concrete inputs: in the two-entry registry
`[7, 9]`, re-adding 7 fails as already blacklisted; removing 7 succeeds
(leaving exactly `[9]` up to membership) and re-adding 7 then succeeds;
and a two-operation run from the empty registry stays within bounds. -/
theorem blacklist_registry_contract_witness :
    (Blacklist.mk [7, 9] 0).add 7 =
      .error (.program .AddressAlreadyBlacklisted) ∧
    (∃ bl' bl'', (Blacklist.mk [7, 9] 0).remove 7 = .ok bl' ∧
      bl'.add 7 = .ok bl'') ∧
    ((runBlacklist (initBlacklist 0) [BlOp.add 7, BlOp.add 9]).addresses.Nodup ∧
      (runBlacklist (initBlacklist 0)
        [BlOp.add 7, BlOp.add 9]).addresses.length ≤ MAX_BLACKLIST_SIZE) :=
  ⟨(blacklist_registry_contract.1 (Blacklist.mk [7, 9] 0) 7).1 (by decide),
   blacklist_registry_contract.2.2 (Blacklist.mk [7, 9] 0) 7 (by decide)
     (by decide) (by decide),
   blacklist_registry_contract.2.1 0 [BlOp.add 7, BlOp.add 9]⟩

/-- C9: Transfer-guard contract.  For every registry of legal size and
every pair of endpoint owners, with a positive amount (the zero-amount
case is the separate implicit check of C10), `on_transfer_hook` fails
with `SourceAddressBlacklisted` when the source owner is a member, fails
with `DestinationAddressBlacklisted` when (only) the destination owner is
a member, and otherwise approves; approval holds exactly when neither
endpoint is a member, and denial is symmetric in source and
destination. -/
theorem transfer_guard_contract (bl : Blacklist) (s d : Pubkey) (a : Nat)
    (hlen : bl.addresses.length ≤ MAX_BLACKLIST_SIZE) (ha : a ≠ 0) :
    (s ∈ bl.addresses →
      on_transfer_hook bl s d a = .error (.program .SourceAddressBlacklisted)) ∧
    (s ∉ bl.addresses → d ∈ bl.addresses →
      on_transfer_hook bl s d a = .error (.program .DestinationAddressBlacklisted)) ∧
    (s ∉ bl.addresses → d ∉ bl.addresses → on_transfer_hook bl s d a = .ok ()) ∧
    (on_transfer_hook bl s d a = .ok () ↔ (s ∉ bl.addresses ∧ d ∉ bl.addresses)) ∧
    ((∃ e, on_transfer_hook bl s d a = .error e) ↔
      (∃ e, on_transfer_hook bl d s a = .error e)) := by
  have hsize : ¬(MAX_BLACKLIST_SIZE < bl.addresses.length) := not_lt.mpr hlen
  have hcase : ∀ (x y : Pubkey),
      (x ∈ bl.addresses →
        on_transfer_hook bl x y a = .error (.program .SourceAddressBlacklisted)) ∧
      (x ∉ bl.addresses → y ∈ bl.addresses →
        on_transfer_hook bl x y a = .error (.program .DestinationAddressBlacklisted)) ∧
      (x ∉ bl.addresses → y ∉ bl.addresses → on_transfer_hook bl x y a = .ok ()) := by
    intro x y
    refine ⟨?_, ?_, ?_⟩
    · intro hx
      unfold on_transfer_hook
      rw [if_neg hsize, if_neg ha, if_pos hx]
    · intro hx hy
      unfold on_transfer_hook
      rw [if_neg hsize, if_neg ha, if_neg hx, if_pos hy]
    · intro hx hy
      unfold on_transfer_hook
      rw [if_neg hsize, if_neg ha, if_neg hx, if_neg hy]
  have happrove : ∀ (x y : Pubkey),
      on_transfer_hook bl x y a = .ok () ↔
        (x ∉ bl.addresses ∧ y ∉ bl.addresses) := by
    intro x y
    obtain ⟨h1, h2, h3⟩ := hcase x y
    constructor
    · intro hok
      by_cases hx : x ∈ bl.addresses
      · rw [h1 hx] at hok
        exact absurd hok (by simp)
      by_cases hy : y ∈ bl.addresses
      · rw [h2 hx hy] at hok
        exact absurd hok (by simp)
      exact ⟨hx, hy⟩
    · intro ⟨hx, hy⟩
      exact h3 hx hy
  have herriff : ∀ (x y : Pubkey),
      (∃ e, on_transfer_hook bl x y a = .error e) ↔
        ¬(on_transfer_hook bl x y a = .ok ()) := by
    intro x y
    cases hres : on_transfer_hook bl x y a with
    | error e => exact ⟨fun _ => by simp, fun _ => ⟨e, rfl⟩⟩
    | ok u =>
      cases u
      exact ⟨fun ⟨e, he⟩ => absurd he (by simp), fun hc => absurd rfl hc⟩
  obtain ⟨hs1, hs2, hs3⟩ := hcase s d
  refine ⟨hs1, hs2, hs3, happrove s d, ?_⟩
  rw [herriff s d, herriff d s, happrove s d, happrove d s]
  tauto

/-- Witness for C9 at concrete inputs: with registry `[7]`, a transfer
from 7 is denied as source-blacklisted, a transfer to 7 is denied as
destination-blacklisted, and a transfer between 1 and 2 is approved. -/
theorem transfer_guard_contract_witness :
    on_transfer_hook (Blacklist.mk [7] 0) 7 2 10 =
      .error (.program .SourceAddressBlacklisted) ∧
    on_transfer_hook (Blacklist.mk [7] 0) 1 7 10 =
      .error (.program .DestinationAddressBlacklisted) ∧
    on_transfer_hook (Blacklist.mk [7] 0) 1 2 10 = .ok () :=
  ⟨(transfer_guard_contract (Blacklist.mk [7] 0) 7 2 10 (by decide) (by decide)).1
      (by decide),
   (transfer_guard_contract (Blacklist.mk [7] 0) 1 7 10 (by decide) (by decide)).2.1
      (by decide) (by decide),
   (transfer_guard_contract (Blacklist.mk [7] 0) 1 2 10 (by decide) (by decide)).2.2.1
      (by decide) (by decide)⟩

/-- C10: Implicit zero-amount rejection in the transfer hook.  For every
registry of legal size and every pair of endpoint owners — including pairs
with neither endpoint blacklisted — `on_transfer_hook` with `amount = 0`
fails with `InvalidAmount`, before any blacklist membership is
consulted. -/
theorem transfer_hook_zero_amount (bl : Blacklist) (s d : Pubkey)
    (hlen : bl.addresses.length ≤ MAX_BLACKLIST_SIZE) :
    on_transfer_hook bl s d 0 = .error (.program .InvalidAmount) := by
  unfold on_transfer_hook
  rw [if_neg (not_lt.mpr hlen), if_pos rfl]

/-- Witness for C10 at a concrete input: zero-amount transfer between
non-blacklisted endpoints 1 and 2 over the empty registry is rejected. -/
theorem transfer_hook_zero_amount_witness :
    on_transfer_hook (initBlacklist 0) 1 2 0 = .error (.program .InvalidAmount) :=
  transfer_hook_zero_amount (initBlacklist 0) 1 2 (by decide)

end Dreamt
